import Mathlib

/- Formal model of the MT7621/MT7688 I2C controller driver
   (drivers/i2c/busses/i2c-mt7621.c), as a shallow embedding.
   Machine integers are modelled as Nat with explicit reductions mod 2^w
   where the C code truncates; errno returns are modelled as Int values. -/

namespace Mt7621I2c

/-- Register offset REG_SM0CFG0 (address-config register), source line 36. -/
def REG_SM0CFG0 : Nat := 0x08

/-- Register offset REG_SM0CFG2, source line 42. -/
def REG_SM0CFG2 : Nat := 0x28

/-- Register offset REG_SM0CTL0, source line 43. -/
def REG_SM0CTL0 : Nat := 0x40

/-- Register offset REG_SM0CTL1 (command trigger register), source line 44. -/
def REG_SM0CTL1 : Nat := 0x44

/-- Register offset REG_SM0D0 (low data register), source line 45. -/
def REG_SM0D0 : Nat := 0x50

/-- Register offset REG_SM0D1 (high data register), source line 46. -/
def REG_SM0D1 : Nat := 0x54

/-- I2C_DEVADDR_MASK, 7-bit device address mask in REG_SM0CFG0, line 52. -/
def I2C_DEVADDR_MASK : Nat := 0x7f

/-- I2C_BUSY, BIT(0) of REG_SM0ST, line 57. -/
def I2C_BUSY : Nat := 1

/-- SM0_TRI_BUSY, BIT(0) of REG_SM0CTL1, line 99. -/
def SM0_TRI_BUSY : Nat := 1

/-- SM0_MODE_START, line 94. -/
def SM0_MODE_START : Nat := 0x1

/-- SM0_MODE_WRITE, line 95. -/
def SM0_MODE_WRITE : Nat := 0x2

/-- SM0_MODE_STOP, line 96. -/
def SM0_MODE_STOP : Nat := 0x3

/-- SM0_MODE_READ_ACK, line 98. -/
def SM0_MODE_READ_ACK : Nat := 0x5

/-- CLK_DIV_MASK, clock divisor field mask in REG_SM0CTL0, line 76. -/
def CLK_DIV_MASK : Nat := 0xfff

/-- CLK_DIV_SHIFT, line 75. -/
def CLK_DIV_SHIFT : Nat := 16

/-- ODRAIN_HIGH_SM0, BIT(31), line 70. -/
def ODRAIN_HIGH_SM0 : Nat := 2^31

/-- VSYNC_PULSE, 0x1 shifted by VSYNC_SHIFT = 28, lines 71-73. -/
def VSYNC_PULSE : Nat := 0x1 <<< 28

/-- WAIT_HIGH, BIT(6), line 79. -/
def WAIT_HIGH : Nat := 2^6

/-- SM0_EN, BIT(1), line 84. -/
def SM0_EN : Nat := 2

/-- I2C_SMBUS_BLOCK_MAX from linux/i2c.h: maximum SMBus block size, 32. -/
def I2C_SMBUS_BLOCK_MAX : Nat := 32

/-- Linux message flag I2C_M_RD. -/
def I2C_M_RD : Nat := 0x0001

/-- Linux message flag I2C_M_TEN (10-bit address). -/
def I2C_M_TEN : Nat := 0x0010

/-- Linux message flag I2C_M_RECV_LEN (SMBus block read). -/
def I2C_M_RECV_LEN : Nat := 0x0400

/-- errno EINVAL = 22. -/
def EINVAL : Int := 22

/-- errno EAGAIN = 11; poll_down_timeout returns -EAGAIN on expiry. -/
def EAGAIN : Int := 11

/-- Clock divisor computation of mtk_i2c_init (lines 345-347):
    clk_div = clk_get_rate(i2c->clk) / i2c->cur_clk, then clamped to
    CLK_DIV_MASK if larger. Nat division is the C unsigned integer
    (floor) division. -/
def mtk_i2c_init_clk_div (rate cur_clk : Nat) : Nat :=
  if rate / cur_clk > CLK_DIV_MASK then CLK_DIV_MASK else rate / cur_clk

/-- poll_down_timeout (lines 125-137). `reads k` is the k-th
    readl_relaxed sample of the polled register; `fuel` is how many times
    time_before(jiffies, timeout) still evaluates true, i.e. the number of
    further loop iterations the deadline allows. When fuel runs out the
    do-while loop exits and the function returns based on one more, final,
    sample: 0 if the masked bits cleared, -EAGAIN otherwise. -/
def poll_down_timeout (reads : Nat → Nat) (mask : Nat) : Nat → Nat → Int
  | k, 0 =>
      if reads k &&& mask = 0 then 0
      else if reads (k+1) &&& mask = 0 then 0 else -EAGAIN
  | k, fuel+1 =>
      if reads k &&& mask = 0 then 0
      else poll_down_timeout reads mask (k+1) fuel

/-- mtk_i2c_wait_idle (lines 139-148): poll I2C_BUSY in REG_SM0ST down,
    abstracting the sampled register values as the stream `reads`. -/
def mtk_i2c_wait_idle (reads : Nat → Nat) (fuel : Nat) : Int :=
  poll_down_timeout reads I2C_BUSY 0 fuel

/-- mtk_i2c_wait_done (lines 165-174): poll SM0_TRI_BUSY in REG_SM0CTL1
    down, abstracting the sampled register values as the stream `reads`. -/
def mtk_i2c_wait_done (reads : Nat → Nat) (fuel : Nat) : Int :=
  poll_down_timeout reads SM0_TRI_BUSY 0 fuel

theorem poll_down_timeout_expiry (reads : Nat → Nat) (mask : Nat) :
    ∀ fuel k, (∀ j, k ≤ j → j ≤ k + fuel → reads j &&& mask ≠ 0) →
    poll_down_timeout reads mask k fuel =
      if reads (k + fuel + 1) &&& mask = 0 then 0 else -EAGAIN := by
  intro fuel
  induction fuel with
  | zero =>
      intro k h
      have hk := h k le_rfl (by omega)
      simp [poll_down_timeout, hk]
  | succ n ih =>
      intro k h
      have hk := h k le_rfl (by omega)
      have step : poll_down_timeout reads mask k (n+1) =
          poll_down_timeout reads mask (k+1) n := by
        simp [poll_down_timeout, hk]
      rw [step, ih (k+1) (fun j hj1 hj2 => h j (by omega) (by omega))]
      have harg : k + 1 + n + 1 = k + (n + 1) + 1 := by omega
      rw [harg]

/-- C8: both wait instantiations used by the engine (the idle wait of
    mtk_i2c_wait_idle and the operation-done wait of mtk_i2c_wait_done, both
    delegating to poll_down_timeout) take one final sample when the timeout
    window expires with the polled bit still set throughout, and succeed
    exactly when the bit is clear at that final sample, failing with the
    timeout error -EAGAIN only otherwise. -/
theorem wait_final_sample (reads : Nat → Nat) (fuel : Nat)
    (hbusy : ∀ j, j ≤ fuel → reads j &&& 1 ≠ 0) :
    (mtk_i2c_wait_idle reads fuel =
      if reads (fuel + 1) &&& I2C_BUSY = 0 then 0 else -EAGAIN) ∧
    (mtk_i2c_wait_done reads fuel =
      if reads (fuel + 1) &&& SM0_TRI_BUSY = 0 then 0 else -EAGAIN) := by
  constructor
  · unfold mtk_i2c_wait_idle
    rw [poll_down_timeout_expiry reads I2C_BUSY fuel 0
      (fun j hj1 hj2 => hbusy j (by omega))]
    norm_num
  · unfold mtk_i2c_wait_done
    rw [poll_down_timeout_expiry reads SM0_TRI_BUSY fuel 0
      (fun j hj1 hj2 => hbusy j (by omega))]
    norm_num

/-- Concrete sample stream for the C8 witness: busy for samples 0..3,
    clear from sample 4 onwards. -/
def pollReadsEx : Nat → Nat := fun k => if k ≤ 3 then 1 else 0

/-- C8 witness: with the busy bit set at every sample inside the timeout
    window and clear at the final sample, both waits succeed. -/
theorem wait_final_sample_witness :
    mtk_i2c_wait_idle pollReadsEx 3 = 0 ∧ mtk_i2c_wait_done pollReadsEx 3 = 0 := by
  have h := wait_final_sample pollReadsEx 3 (by
    intro j hj
    simp [pollReadsEx, hj])
  obtain ⟨h1, h2⟩ := h
  refine ⟨?_, ?_⟩
  · rw [h1]; norm_num [pollReadsEx, I2C_BUSY]
  · rw [h2]; norm_num [pollReadsEx, SM0_TRI_BUSY]

/-- C7: the derived clock divisor equals floor(rate / desired) clamped to
    the field maximum 0xFFF, hence never exceeds 0xFFF; 40 MHz input with
    100 kHz desired yields 400, unclamped. -/
theorem clk_div_floor_clamped (rate cur_clk : Nat) (_hpos : 0 < cur_clk) :
    mtk_i2c_init_clk_div rate cur_clk = min (rate / cur_clk) 0xfff ∧
    mtk_i2c_init_clk_div rate cur_clk ≤ 0xfff ∧
    mtk_i2c_init_clk_div 40000000 100000 = 400 := by
  refine ⟨?_, ?_, by decide⟩
  · unfold mtk_i2c_init_clk_div CLK_DIV_MASK
    split <;> omega
  · unfold mtk_i2c_init_clk_div CLK_DIV_MASK
    split <;> omega

/-- C7 witness: instantiation at rate 40 MHz, desired bus frequency
    100 kHz. -/
theorem clk_div_floor_clamped_witness :
    mtk_i2c_init_clk_div 40000000 100000 = min (40000000 / 100000) 0xfff ∧
    mtk_i2c_init_clk_div 40000000 100000 ≤ 0xfff ∧
    mtk_i2c_init_clk_div 40000000 100000 = 400 :=
  clk_div_floor_clamped 40000000 100000 (by decide)

/-- The command word written to REG_SM0CTL1 for one micro-operation, as
    written inline throughout mtk_i2c_master_xfer and mtk_i2c_read:
    (0xFF <<< 16) ||| (cnt <<< 8) ||| (mode <<< 4) ||| 1. -/
def sm0ctl1_cmd (cnt mode : Nat) : Nat :=
  (0xFF <<< 16) ||| (cnt <<< 8) ||| (mode <<< 4) ||| 1

/-- One term of the write-path packing loop (line 294):
    verb |= pmsg->buf[j + pkt_num*8] << (j*8).
    The buffer element has type uint8_t and is integer promoted to the
    32-bit int of the target before the shift, so the shift happens in
    32-bit signed arithmetic: the shift count is reduced mod 32 (the
    behaviour gcc emits on MIPS and x86 for the C-undefined shift of 32 or
    more), the result wraps to 32 bits, and the resulting signed int is
    sign extended when converted to the uint64_t verb for the bitwise or. -/
def shiftTermC (b j : Nat) : Nat :=
  let v := (b <<< ((8 * j) % 32)) % 2^32
  if 2^31 ≤ v then (2^64 - 2^32) + v else v

/-- The verb accumulated for one chunk by the loop at lines 292-295:
    chunk bytes are buf (pkt_num*8 + j) for j < len, each read as uint8_t. -/
def verbOf (buf : Nat → Nat) (pkt_num len : Nat) : Nat :=
  (List.range len).foldl
    (fun verb j => verb ||| shiftTermC (buf (pkt_num * 8 + j) % 2^8) j) 0

/-- One hardware write operation of the write path: the values written to
    REG_SM0D0, REG_SM0D1 and REG_SM0CTL1 for one chunk (lines 296-299). -/
structure WOp where
  d0 : Nat
  d1 : Nat
  ctl1 : Nat
deriving DecidableEq

/-- The write loop of mtk_i2c_master_xfer (lines 286-303). plen is the
    remaining byte count, len = min plen 8 the chunk size; L is pmsg->len,
    so the byte-count field of every chunk command is (L-1) &&& 7
    (line 299). mtk_i2c_w32 takes a u32, truncating verb and verb >>> 32.
    fuel bounds the loop iteration count; the wrapper passes fuel = L,
    which suffices because every iteration consumes at least one byte. -/
def writeOpsGo : Nat → (Nat → Nat) → Nat → Nat → Nat → List WOp
  | 0, _, _, _, _ => []
  | fuel+1, buf, L, pkt_num, plen =>
      if plen = 0 then []
      else
        let len := min plen 8
        let verb := verbOf buf pkt_num len
        { d0 := verb % 2^32, d1 := (verb >>> 32) % 2^32,
          ctl1 := sm0ctl1_cmd ((L - 1) &&& 7) SM0_MODE_WRITE } ::
        writeOpsGo fuel buf L (pkt_num + 1) (plen - len)

/-- All hardware write operations issued for a plain-write message of
    length L with buffer buf. -/
def mtk_i2c_write_ops (buf : Nat → Nat) (L : Nat) : List WOp :=
  writeOpsGo L buf L 0 L

/-- The REG_SM0CTL1 commands issued by mtk_i2c_read (lines 211-215), one
    per chunk: mode SM0_MODE_READ_ACK, byte-count field plen - 1. fuel as
    in writeOpsGo. -/
def readOpsGo : Nat → Nat → List Nat
  | 0, _ => []
  | fuel+1, len =>
      if len = 0 then []
      else
        let plen := min len 8
        sm0ctl1_cmd (plen - 1) SM0_MODE_READ_ACK :: readOpsGo fuel (len - plen)

/-- All read commands issued by mtk_i2c_read for a length-len read. -/
def mtk_i2c_read_ops (len : Nat) : List Nat := readOpsGo len len

/-- The bytes unpacked by mtk_i2c_read (lines 217-220): for chunk pkt_num
    the 64-bit d = SM0D0 ||| (SM0D1 <<< 32), and
    buf (i + pkt_num*8) = d >>> (8*i) truncated to uint8_t, for i < plen.
    rd0 and rd1 give the data-register values of each chunk. -/
def readBytesGo (rd0 rd1 : Nat → Nat) : Nat → Nat → Nat → List Nat
  | 0, _, _ => []
  | fuel+1, pkt_num, len =>
      if len = 0 then []
      else
        let plen := min len 8
        let d := (rd0 pkt_num % 2^32) ||| ((rd1 pkt_num % 2^32) <<< 32)
        (List.range plen).map (fun i => (d >>> (8 * i)) % 2^8) ++
        readBytesGo rd0 rd1 fuel (pkt_num + 1) (len - plen)

/-- All bytes delivered by mtk_i2c_read for a length-len read. -/
def mtk_i2c_read_bytes (rd0 rd1 : Nat → Nat) (len : Nat) : List Nat :=
  readBytesGo rd0 rd1 len 0 len

/-- Little-endian packing as the specification describes the 64-bit
    data-register window: byte k of the chunk at bit offset 8*k. Stated
    from the spec's words, for comparison with the code's packing. -/
def specPackLE (bytes : List Nat) : Nat :=
  bytes.foldr (fun b acc => (b % 2^8) + 2^8 * acc) 0

/-- Round trip through the engine: write buffer B through the write path,
    let the device echo each chunk's data-register window back, and read
    B.length bytes through the read path. -/
def engine_roundtrip (B : List Nat) : List Nat :=
  let ops := mtk_i2c_write_ops (fun j => B.getD j 0) B.length
  mtk_i2c_read_bytes (fun k => (ops.getD k ⟨0, 0, 0⟩).d0)
                     (fun k => (ops.getD k ⟨0, 0, 0⟩).d1) B.length

/-- C2 (code bug witness): on the 5-byte write [1,2,3,4,5] the engine does
    issue ceil(5/8) = 1 write operation, but the 64-bit data-register
    window is not the little-endian packing of the chunk: the spec's
    packing puts byte 4 (value 5) at bit offset 32, i.e. in REG_SM0D1,
    yet the 32-bit-promoted shift of the code folds it into REG_SM0D0
    (0x04030205) and REG_SM0D1 stays 0. -/
theorem write_pack_bug_at_len5 :
    (mtk_i2c_write_ops (fun j => [1, 2, 3, 4, 5].getD j 0) 5).length = (5 + 7) / 8 ∧
    mtk_i2c_write_ops (fun j => [1, 2, 3, 4, 5].getD j 0) 5 =
      [{ d0 := 0x04030205, d1 := 0, ctl1 := sm0ctl1_cmd 4 SM0_MODE_WRITE }] ∧
    (specPackLE [1, 2, 3, 4, 5] >>> 32) % 2^32 = 5 ∧
    ((mtk_i2c_write_ops (fun j => [1, 2, 3, 4, 5].getD j 0) 5).getD 0 ⟨0, 0, 0⟩).d1 ≠
      (specPackLE [1, 2, 3, 4, 5] >>> 32) % 2^32 := by
  decide

/-- C3 (code bug witness): the round-trip law fails at B = [1,2,3,4,5]:
    writing B and reading 5 bytes from a device echoing the data-register
    window yields [5,2,3,4,0], not B. -/
theorem roundtrip_bug_at_len5 :
    engine_roundtrip [1, 2, 3, 4, 5] = [5, 2, 3, 4, 0] ∧
    engine_roundtrip [1, 2, 3, 4, 5] ≠ [1, 2, 3, 4, 5] := by
  decide

/-- Concrete 10-byte buffer for the C4 evaluation. -/
def buf10 : Nat → Nat := fun j => [1, 2, 3, 4, 5, 6, 7, 8, 9, 10].getD j 0

/-- C4 (code bug witness): on the 10-byte write [1,...,10] both chunk
    commands carry byte-count field (10-1) &&& 7 = 1 — the total-length
    framing the claim describes, not the chunk-own encodings 7 and 1 —
    but the first chunk's data registers hold 0x0C070605 / 0 instead of
    the chunk's bytes 1..8 packed little-endian (0x04030201 / 0x08070605),
    so the claim's data-register clause fails. -/
theorem write_framing_at_len10 :
    (mtk_i2c_write_ops buf10 10).map (fun o => (o.ctl1 >>> 8) &&& 7) = [1, 1] ∧
    [1, 1] ≠ [8 - 1, 2 - 1] ∧
    mtk_i2c_write_ops buf10 10 =
      [{ d0 := 0x0C070605, d1 := 0, ctl1 := sm0ctl1_cmd 1 SM0_MODE_WRITE },
       { d0 := 0x00000A09, d1 := 0, ctl1 := sm0ctl1_cmd 1 SM0_MODE_WRITE }] ∧
    ((mtk_i2c_write_ops buf10 10).getD 0 ⟨0, 0, 0⟩).d0 ≠
      specPackLE [1, 2, 3, 4, 5, 6, 7, 8] % 2^32 := by
  decide

/-- Observable hardware events of one transfer: each 32-bit register write
    (mtk_i2c_w32), each mtk_i2c_wait_done call together with its result —
    which the C code discards at every call site (lines 216, 265, 270, 280,
    300, 307) — and the device_reset performed by mtk_i2c_reset. Register
    reads (status polling, data registers, the diagnostic dump) mutate
    nothing and are not recorded. -/
inductive Ev where
  | w32 (reg val : Nat)
  | waitDone (res : Int)
  | devreset
deriving DecidableEq

/-- Hardware oracle for one transfer call: the result of the k-th
    mtk_i2c_wait_idle call, the result of the k-th mtk_i2c_wait_done call
    (each 0 or -EAGAIN, per poll_down_timeout), and the REG_SM0D0 /
    REG_SM0D1 contents delivered for the k-th read chunk. -/
structure HW where
  idleRes : Nat → Int
  doneRes : Nat → Int
  rd0 : Nat → Nat
  rd1 : Nat → Nat

/-- A logical message, mirroring the fields of struct i2c_msg the driver
    uses: addr, flags, len, and the byte buffer (for write messages). -/
structure I2cMsg where
  addr : Nat
  flags : Nat
  len : Nat
  buf : List Nat

/-- mtk_i2c_reset (lines 176-189): device_reset, rewrite REG_SM0CTL0 with
    the fixed flags and the clock divisor, clear REG_SM0CFG2. -/
def resetEvs (clk_div : Nat) : List Ev :=
  [Ev.devreset,
   Ev.w32 REG_SM0CTL0
     (ODRAIN_HIGH_SM0 ||| VSYNC_PULSE ||| (clk_div <<< CLK_DIV_SHIFT) |||
      WAIT_HIGH ||| SM0_EN),
   Ev.w32 REG_SM0CFG2 0]

/-- Events of the write loop (lines 286-303): per chunk, the REG_SM0D0 and
    REG_SM0D1 writes, the REG_SM0CTL1 command, and one mtk_i2c_wait_done
    whose result is discarded (line 300). dc numbers the wait_done calls. -/
def writeLoopEvs (hw : HW) : List WOp → Nat → List Ev
  | [], _ => []
  | o :: rest, dc =>
      Ev.w32 REG_SM0D0 o.d0 :: Ev.w32 REG_SM0D1 o.d1 ::
      Ev.w32 REG_SM0CTL1 o.ctl1 :: Ev.waitDone (hw.doneRes dc) ::
      writeLoopEvs hw rest (dc + 1)

/-- Events of mtk_i2c_read (lines 207-224): per chunk, the REG_SM0CTL1
    read command and one mtk_i2c_wait_done whose result is discarded
    (line 216). -/
def readLoopEvs (hw : HW) : List Nat → Nat → List Ev
  | [], _ => []
  | c :: rest, dc =>
      Ev.w32 REG_SM0CTL1 c :: Ev.waitDone (hw.doneRes dc) ::
      readLoopEvs hw rest (dc + 1)

/-- Number of chunks (loop iterations) of a length-len engine call. -/
def numChunks (len : Nat) : Nat := (len + 7) / 8

/-- First byte delivered by the length-1 mtk_i2c_read of the block-read
    path (line 274), for read chunk rc:
    buf 0 = (SM0D0 ||| SM0D1 <<< 32) truncated to uint8_t. -/
def recvLenByte (hw : HW) (rc : Nat) : Nat :=
  ((hw.rd0 rc % 2^32) ||| ((hw.rd1 rc % 2^32) <<< 32)) % 2^8

/-- Result of processing one message of the mtk_i2c_master_xfer loop: the
    events produced, the early-return error if any (some e means the whole
    transfer returns e immediately), and the updated wait-done and
    read-chunk counters. -/
structure MsgRes where
  evs : List Ev
  err : Option Int
  dc : Nat
  rc : Nat

/-- One iteration of the message loop of mtk_i2c_master_xfer
    (lines 236-308), with i the message index (one mtk_i2c_wait_idle per
    message, its result in hw.idleRes i). On a nonzero idle-wait result
    the code takes the err_timeout path (line 314): diagnostic register
    dump (reads only), mtk_i2c_reset, and the transfer returns that wait
    result. A 10-bit-address message returns -EINVAL before any register
    write; the 7-bit address is written to REG_SM0CFG0 before the
    zero-length check (lines 251 and 256). The block-read path reads one
    length byte; if it is not strictly between 0 and I2C_SMBUS_BLOCK_MAX
    the code issues a stop command and returns -EINVAL (lines 273-282). -/
def xferMsg (hw : HW) (clk_div i dc rc : Nat) (m : I2cMsg) : MsgRes :=
  if hw.idleRes i ≠ 0 then
    { evs := resetEvs clk_div, err := some (hw.idleRes i), dc := dc, rc := rc }
  else if m.flags &&& I2C_M_TEN ≠ 0 then
    { evs := [], err := some (-EINVAL), dc := dc, rc := rc }
  else if m.len = 0 then
    { evs := [Ev.w32 REG_SM0CFG0 (m.addr &&& I2C_DEVADDR_MASK)],
      err := some (-EINVAL), dc := dc, rc := rc }
  else
    let pre : List Ev :=
      [Ev.w32 REG_SM0CFG0 (m.addr &&& I2C_DEVADDR_MASK),
       Ev.w32 REG_SM0CTL1 (sm0ctl1_cmd 0 SM0_MODE_START),
       Ev.waitDone (hw.doneRes dc),
       Ev.w32 REG_SM0D0
         (((m.addr <<< 1) ||| (if m.flags &&& I2C_M_RD ≠ 0 then 1 else 0)) &&& 0xFF),
       Ev.w32 REG_SM0CTL1 (sm0ctl1_cmd 0 SM0_MODE_WRITE),
       Ev.waitDone (hw.doneRes (dc + 1))]
    if m.flags &&& I2C_M_RECV_LEN ≠ 0 then
      let lenEvs := readLoopEvs hw (mtk_i2c_read_ops 1) (dc + 2)
      let n := recvLenByte hw rc
      if n < I2C_SMBUS_BLOCK_MAX ∧ n > 0 then
        { evs := pre ++ lenEvs ++
            readLoopEvs hw (mtk_i2c_read_ops n) (dc + 3) ++
            [Ev.w32 REG_SM0CTL1 (sm0ctl1_cmd 0 SM0_MODE_STOP),
             Ev.waitDone (hw.doneRes (dc + 3 + numChunks n))],
          err := none, dc := dc + 4 + numChunks n, rc := rc + 1 + numChunks n }
      else
        { evs := pre ++ lenEvs ++
            [Ev.w32 REG_SM0CTL1 (sm0ctl1_cmd 0 SM0_MODE_STOP),
             Ev.waitDone (hw.doneRes (dc + 3))],
          err := some (-EINVAL), dc := dc + 4, rc := rc + 1 }
    else if m.flags &&& I2C_M_RD ≠ 0 then
      { evs := pre ++ readLoopEvs hw (mtk_i2c_read_ops m.len) (dc + 2) ++
          [Ev.w32 REG_SM0CTL1 (sm0ctl1_cmd 0 SM0_MODE_STOP),
           Ev.waitDone (hw.doneRes (dc + 2 + numChunks m.len))],
        err := none, dc := dc + 3 + numChunks m.len, rc := rc + numChunks m.len }
    else
      { evs := pre ++
          writeLoopEvs hw (mtk_i2c_write_ops (fun j => m.buf.getD j 0) m.len) (dc + 2) ++
          [Ev.w32 REG_SM0CTL1 (sm0ctl1_cmd 0 SM0_MODE_STOP),
           Ev.waitDone (hw.doneRes (dc + 2 + numChunks m.len))],
        err := none, dc := dc + 3 + numChunks m.len, rc := rc }

/-- The message loop of mtk_i2c_master_xfer (lines 236-312): messages are
    processed in order; an early error aborts the remaining messages and
    becomes the return value; on full success the return value is the
    number of executed messages. -/
def xferGo (hw : HW) (clk_div : Nat) : List I2cMsg → Nat → Nat → Nat → List Ev × Int
  | [], i, _, _ => ([], Int.ofNat i)
  | m :: rest, i, dc, rc =>
      let r := xferMsg hw clk_div i dc rc m
      match r.err with
      | some e => (r.evs, e)
      | none =>
          let t := xferGo hw clk_div rest (i + 1) r.dc r.rc
          (r.evs ++ t.1, t.2)

/-- mtk_i2c_master_xfer (lines 226-319): the transfer entry point,
    returning the full event trace and the C return value. -/
def mtk_i2c_master_xfer (hw : HW) (clk_div : Nat) (msgs : List I2cMsg) :
    List Ev × Int :=
  xferGo hw clk_div msgs 0 0 0

/-- Number of Reset and Recovery cycles (device_reset calls) in a trace. -/
def countReset (evs : List Ev) : Nat :=
  evs.countP (fun e => match e with
    | Ev.devreset => true
    | _ => false)

/-- Number of REG_SM0CTL1 commands of the given mode in a trace. -/
def countCmd (mode : Nat) (evs : List Ev) : Nat :=
  evs.countP (fun e => match e with
    | Ev.w32 r v => r == REG_SM0CTL1 && ((v >>> 4) &&& 7) == mode
    | _ => false)

/-- A quiet hardware oracle: every wait succeeds, the data registers read
    as zero. -/
def hwQuiet : HW :=
  { idleRes := fun _ => 0, doneRes := fun _ => 0,
    rd0 := fun _ => 0, rd1 := fun _ => 0 }

/-- C9: a message with the 10-bit-address flag set makes the transfer
    entry point return -EINVAL with an empty event trace, i.e. without any
    register write for that message (the preceding idle wait only reads
    the status register). -/
theorem xfer_ten_einval (hw : HW) (clk_div : Nat) (m : I2cMsg)
    (hidle : hw.idleRes 0 = 0) (hten : m.flags &&& I2C_M_TEN ≠ 0) :
    mtk_i2c_master_xfer hw clk_div [m] = ([], -EINVAL) := by
  simp [mtk_i2c_master_xfer, xferGo, xferMsg, hidle, hten]

/-- Concrete message for the C9 witness: 10-bit flag set. -/
def msgTenEx : I2cMsg := { addr := 0x50, flags := 0x10, len := 1, buf := [0] }

/-- C9 witness: the 10-bit-address rejection at a concrete message. -/
theorem xfer_ten_einval_witness :
    mtk_i2c_master_xfer hwQuiet 400 [msgTenEx] = ([], -EINVAL) :=
  xfer_ten_einval hwQuiet 400 msgTenEx rfl (by decide)

/-- C5 (amended): a zero-length message makes the transfer entry point
    return -EINVAL, but only after the 7-bit address has been written to
    REG_SM0CFG0; that address write is the only register write performed
    for the message. -/
theorem xfer_len0_einval_after_addr_write (hw : HW) (clk_div : Nat) (m : I2cMsg)
    (hidle : hw.idleRes 0 = 0) (hten : m.flags &&& I2C_M_TEN = 0)
    (hlen : m.len = 0) :
    mtk_i2c_master_xfer hw clk_div [m] =
      ([Ev.w32 REG_SM0CFG0 (m.addr &&& I2C_DEVADDR_MASK)], -EINVAL) := by
  simp [mtk_i2c_master_xfer, xferGo, xferMsg, hidle, hten, hlen]

/-- C5 counterexample: for a concrete zero-length message the transfer
    does return -EINVAL, but its trace contains a register write (the
    REG_SM0CFG0 address write), contradicting the claim's
    "without performing any register write". -/
theorem xfer_len0_counterexample :
    mtk_i2c_master_xfer hwQuiet 400 [{ addr := 0x50, flags := 0, len := 0, buf := [] }] =
      ([Ev.w32 REG_SM0CFG0 0x50], -EINVAL) ∧
    (mtk_i2c_master_xfer hwQuiet 400 [{ addr := 0x50, flags := 0, len := 0, buf := [] }]).1 ≠ [] := by
  decide

/-- Concrete message for the C5 witness: zero-length, address 0xD1, whose
    low 7 bits are 0x51. -/
def msgLen0Ex : I2cMsg := { addr := 0xD1, flags := 0, len := 0, buf := [] }

/-- C5 witness: amended behaviour at a concrete zero-length message. -/
theorem xfer_len0_einval_witness :
    mtk_i2c_master_xfer hwQuiet 400 [msgLen0Ex] =
      ([Ev.w32 REG_SM0CFG0 (0xD1 &&& I2C_DEVADDR_MASK)], -EINVAL) :=
  xfer_len0_einval_after_addr_write hwQuiet 400 msgLen0Ex rfl (by decide) rfl

/-- C6: a block-read message whose first received length byte n is 0 or at
    least I2C_SMBUS_BLOCK_MAX makes the transfer return -EINVAL, with
    exactly one stop command issued and no read command beyond the single
    length-byte read (no data read driven by n). -/
theorem xfer_recv_len_bogus (hw : HW) (clk_div : Nat) (m : I2cMsg)
    (hidle : hw.idleRes 0 = 0) (hten : m.flags &&& I2C_M_TEN = 0)
    (hlen : m.len ≠ 0) (hrl : m.flags &&& I2C_M_RECV_LEN ≠ 0)
    (hn : recvLenByte hw 0 = 0 ∨ I2C_SMBUS_BLOCK_MAX ≤ recvLenByte hw 0) :
    (mtk_i2c_master_xfer hw clk_div [m]).2 = -EINVAL ∧
    countCmd SM0_MODE_STOP (mtk_i2c_master_xfer hw clk_div [m]).1 = 1 ∧
    countCmd SM0_MODE_READ_ACK (mtk_i2c_master_xfer hw clk_div [m]).1 = 1 := by
  have hcond : ¬(recvLenByte hw 0 < I2C_SMBUS_BLOCK_MAX ∧ recvLenByte hw 0 > 0) := by
    simp only [I2C_SMBUS_BLOCK_MAX] at hn ⊢
    omega
  by_cases hrd : m.flags &&& I2C_M_RD ≠ 0 <;>
    simp [mtk_i2c_master_xfer, xferGo, xferMsg, hidle, hten, hlen, hrl, hrd,
      hcond, countCmd, mtk_i2c_read_ops, readOpsGo, readLoopEvs, sm0ctl1_cmd,
      List.countP_cons, REG_SM0CFG0, REG_SM0CTL1, REG_SM0D0, SM0_MODE_STOP,
      SM0_MODE_READ_ACK, SM0_MODE_START, SM0_MODE_WRITE, EINVAL] <;>
    decide

/-- Hardware oracle for the C6 witness: the device answers every read
    chunk with 200 in the low byte of REG_SM0D0. -/
def hwRecvLen200 : HW :=
  { idleRes := fun _ => 0, doneRes := fun _ => 0,
    rd0 := fun _ => 200, rd1 := fun _ => 0 }

/-- Concrete message for the C6 witness: block read at address 0x44. -/
def msgRecvLenEx : I2cMsg := { addr := 0x44, flags := 0x400, len := 34, buf := [] }

/-- C6 witness: block read whose declared length byte is 200 (at least the
    block maximum 32). -/
theorem xfer_recv_len_bogus_witness :
    (mtk_i2c_master_xfer hwRecvLen200 400 [msgRecvLenEx]).2 = -EINVAL ∧
    countCmd SM0_MODE_STOP (mtk_i2c_master_xfer hwRecvLen200 400 [msgRecvLenEx]).1 = 1 ∧
    countCmd SM0_MODE_READ_ACK (mtk_i2c_master_xfer hwRecvLen200 400 [msgRecvLenEx]).1 = 1 :=
  xfer_recv_len_bogus hwRecvLen200 400 msgRecvLenEx rfl (by decide) (by decide)
    (by decide) (Or.inr (by decide))

/-- C10: a plain message with the 10-bit flag clear and an address above
    0x7F is not rejected: the transfer succeeds reporting 1 executed
    message, the address-config register receives only the low 7 bits of
    the address (a genuine truncation), and the bus address byte is the
    low 8 bits of (addr <<< 1) ||| dir. -/
theorem xfer_addr_truncated (hw : HW) (clk_div : Nat) (m : I2cMsg)
    (hidle : hw.idleRes 0 = 0) (hten : m.flags &&& I2C_M_TEN = 0)
    (hrl : m.flags &&& I2C_M_RECV_LEN = 0) (hlen : m.len ≠ 0)
    (haddr : 0x7f < m.addr) :
    (mtk_i2c_master_xfer hw clk_div [m]).2 = 1 ∧
    Ev.w32 REG_SM0CFG0 (m.addr &&& I2C_DEVADDR_MASK) ∈ (mtk_i2c_master_xfer hw clk_div [m]).1 ∧
    Ev.w32 REG_SM0D0 (((m.addr <<< 1) ||| (if m.flags &&& I2C_M_RD ≠ 0 then 1 else 0)) &&& 0xFF)
      ∈ (mtk_i2c_master_xfer hw clk_div [m]).1 ∧
    m.addr &&& I2C_DEVADDR_MASK ≠ m.addr := by
  have htrunc : m.addr &&& I2C_DEVADDR_MASK ≠ m.addr := by
    have hle : m.addr &&& 0x7f ≤ 0x7f := Nat.and_le_right
    simp only [I2C_DEVADDR_MASK]
    omega
  by_cases hrd : m.flags &&& I2C_M_RD ≠ 0 <;>
    simp [mtk_i2c_master_xfer, xferGo, xferMsg, hidle, hten, hrl, hlen, hrd, htrunc]

/-- Concrete message for the C10 witness: address 0x1F4 (beyond 7 bits),
    plain 1-byte write. -/
def msgBigAddrEx : I2cMsg := { addr := 0x1F4, flags := 0, len := 1, buf := [0] }

/-- C10 witness: the silent truncation at address 0x1F4. -/
theorem xfer_addr_truncated_witness :
    (mtk_i2c_master_xfer hwQuiet 400 [msgBigAddrEx]).2 = 1 ∧
    Ev.w32 REG_SM0CFG0 (msgBigAddrEx.addr &&& I2C_DEVADDR_MASK)
      ∈ (mtk_i2c_master_xfer hwQuiet 400 [msgBigAddrEx]).1 ∧
    Ev.w32 REG_SM0D0 (((msgBigAddrEx.addr <<< 1) |||
        (if msgBigAddrEx.flags &&& I2C_M_RD ≠ 0 then 1 else 0)) &&& 0xFF)
      ∈ (mtk_i2c_master_xfer hwQuiet 400 [msgBigAddrEx]).1 ∧
    msgBigAddrEx.addr &&& I2C_DEVADDR_MASK ≠ msgBigAddrEx.addr :=
  xfer_addr_truncated hwQuiet 400 msgBigAddrEx rfl (by decide) (by decide)
    (by decide) (by decide)

theorem countReset_append (a b : List Ev) :
    countReset (a ++ b) = countReset a + countReset b := by
  simp [countReset, List.countP_append]

theorem countReset_nil : countReset [] = 0 := rfl

theorem countReset_cons_w32 (r v : Nat) (l : List Ev) :
    countReset (Ev.w32 r v :: l) = countReset l := by
  simp [countReset, List.countP_cons]

theorem countReset_cons_waitDone (x : Int) (l : List Ev) :
    countReset (Ev.waitDone x :: l) = countReset l := by
  simp [countReset, List.countP_cons]

theorem countReset_writeLoopEvs (hw : HW) :
    ∀ ops dc, countReset (writeLoopEvs hw ops dc) = 0 := by
  intro ops
  induction ops with
  | nil => intro dc; rfl
  | cons o rest ih =>
      intro dc
      simp only [writeLoopEvs, countReset, List.countP_cons] at ih ⊢
      simp [ih]

theorem countReset_readLoopEvs (hw : HW) :
    ∀ cs dc, countReset (readLoopEvs hw cs dc) = 0 := by
  intro cs
  induction cs with
  | nil => intro dc; rfl
  | cons c rest ih =>
      intro dc
      simp only [readLoopEvs, countReset, List.countP_cons] at ih ⊢
      simp [ih]

/-- A plain, well-formed message: 10-bit flag clear, nonzero length, not a
    block read. -/
def plainOk (m : I2cMsg) : Prop :=
  m.flags &&& I2C_M_TEN = 0 ∧ m.len ≠ 0 ∧ m.flags &&& I2C_M_RECV_LEN = 0

theorem xferMsg_ok (hw : HW) (clk_div i dc rc : Nat) (m : I2cMsg)
    (hidle : hw.idleRes i = 0) (hok : plainOk m) :
    (xferMsg hw clk_div i dc rc m).err = none ∧
    countReset (xferMsg hw clk_div i dc rc m).evs = 0 := by
  obtain ⟨hten, hlen, hrl⟩ := hok
  by_cases hrd : m.flags &&& I2C_M_RD ≠ 0 <;>
    simp [xferMsg, hidle, hten, hlen, hrl, hrd, countReset_append,
      countReset_writeLoopEvs, countReset_readLoopEvs, countReset_nil,
      countReset_cons_w32, countReset_cons_waitDone]

theorem xferGo_idle_timeout (hw : HW) (clk_div : Nat) :
    ∀ (msgs : List I2cMsg) (j i dc rc : Nat),
    (∀ k, k < j → hw.idleRes (i + k) = 0) → hw.idleRes (i + j) = -EAGAIN →
    j < msgs.length → (∀ m ∈ msgs, plainOk m) →
    (xferGo hw clk_div msgs i dc rc).2 = -EAGAIN ∧
    countReset (xferGo hw clk_div msgs i dc rc).1 = 1 := by
  intro msgs
  induction msgs with
  | nil =>
      intro j i dc rc h0 h1 h2 h3
      simp at h2
  | cons m rest ih =>
      intro j i dc rc h0 h1 h2 h3
      match j with
      | 0 =>
          have hi : hw.idleRes i = -EAGAIN := by simpa using h1
          simp [xferGo, xferMsg, hi, resetEvs, countReset, EAGAIN,
            List.countP_cons]
      | Nat.succ j0 =>
          have hi : hw.idleRes i = 0 := by
            have := h0 0 (by omega)
            simpa using this
          obtain ⟨he, hc⟩ := xferMsg_ok hw clk_div i dc rc m hi (h3 m (by simp))
          have h0a : ∀ k, k < j0 → hw.idleRes (i + 1 + k) = 0 := by
            intro k hk
            have := h0 (k + 1) (by omega)
            have harg : i + (k + 1) = i + 1 + k := by omega
            rwa [harg] at this
          have h1a : hw.idleRes (i + 1 + j0) = -EAGAIN := by
            have harg : i + (j0 + 1) = i + 1 + j0 := by omega
            rwa [harg] at h1
          have h2a : j0 < rest.length := by
            simp at h2
            omega
          have h3a : ∀ m0 ∈ rest, plainOk m0 := fun m0 hm => h3 m0 (by simp [hm])
          obtain ⟨ht2, ht1⟩ := ih j0 (i + 1) (xferMsg hw clk_div i dc rc m).dc
            (xferMsg hw clk_div i dc rc m).rc h0a h1a h2a h3a
          simp only [xferGo, he]
          exact ⟨ht2, by simp [countReset_append, hc, ht1]⟩

/-- C1 (amended): when the idle wait of message position j times out (all
    earlier idle waits succeeding, every message plain and well-formed),
    the transfer entry point returns the timeout error -EAGAIN — fewer
    than the requested message count — and the trace contains exactly one
    Reset and Recovery cycle, the remaining messages being aborted.
    Operation-done wait timeouts, by contrast, are discarded by the code
    (see the counterexample theorem). -/
theorem xfer_idle_timeout_resets_once (hw : HW) (clk_div : Nat)
    (msgs : List I2cMsg) (j : Nat)
    (h0 : ∀ k, k < j → hw.idleRes k = 0) (h1 : hw.idleRes j = -EAGAIN)
    (h2 : j < msgs.length) (h3 : ∀ m ∈ msgs, plainOk m) :
    (mtk_i2c_master_xfer hw clk_div msgs).2 = -EAGAIN ∧
    countReset (mtk_i2c_master_xfer hw clk_div msgs).1 = 1 ∧
    (mtk_i2c_master_xfer hw clk_div msgs).2 < Int.ofNat msgs.length := by
  have h := xferGo_idle_timeout hw clk_div msgs j 0 0 0
    (by intro k hk; simpa using h0 k hk) (by simpa using h1) h2 h3
  have hval : (mtk_i2c_master_xfer hw clk_div msgs).2 = -EAGAIN := h.1
  have hcnt : countReset (mtk_i2c_master_xfer hw clk_div msgs).1 = 1 := h.2
  refine ⟨hval, hcnt, ?_⟩
  rw [hval]
  simp only [EAGAIN, Int.ofNat_eq_natCast]
  omega

/-- Hardware oracle for the C1 witness: the very first idle wait times
    out, everything else succeeds. -/
def hwIdleTimeout : HW :=
  { idleRes := fun k => if k = 0 then -EAGAIN else 0, doneRes := fun _ => 0,
    rd0 := fun _ => 0, rd1 := fun _ => 0 }

/-- Concrete message for the C1 witness and counterexample: the spec's
    scenario write message, addr 0x50, bytes 0x00 0x10. -/
def msgWriteEx : I2cMsg := { addr := 0x50, flags := 0, len := 2, buf := [0x00, 0x10] }

/-- C1 witness: idle-wait timeout on the first of one message. -/
theorem xfer_idle_timeout_resets_once_witness :
    (mtk_i2c_master_xfer hwIdleTimeout 400 [msgWriteEx]).2 = -EAGAIN ∧
    countReset (mtk_i2c_master_xfer hwIdleTimeout 400 [msgWriteEx]).1 = 1 ∧
    (mtk_i2c_master_xfer hwIdleTimeout 400 [msgWriteEx]).2 < Int.ofNat [msgWriteEx].length :=
  xfer_idle_timeout_resets_once hwIdleTimeout 400 [msgWriteEx] 0
    (by intro k hk; exact absurd hk (Nat.not_lt_zero k)) (by decide) (by decide)
    (by intro m hm; simp only [List.mem_singleton] at hm; subst hm
        exact ⟨by decide, by decide, by decide⟩)

/-- Hardware oracle for the C1 counterexample: every operation-done wait
    times out (result -EAGAIN), every idle wait succeeds. -/
def hwDoneTimeout : HW :=
  { idleRes := fun _ => 0, doneRes := fun _ => -EAGAIN,
    rd0 := fun _ => 0, rd1 := fun _ => 0 }

/-- C1 counterexample: with every operation-done wait timing out — the
    -EAGAIN results are visible in the trace — the transfer of one 2-byte
    write still reports 1 executed message (not fewer than requested) and
    performs no Reset and Recovery cycle, contradicting the claim for
    operation-done wait points: their results are discarded by the code. -/
theorem xfer_done_timeout_ignored :
    (mtk_i2c_master_xfer hwDoneTimeout 400 [msgWriteEx]).2 = Int.ofNat [msgWriteEx].length ∧
    countReset (mtk_i2c_master_xfer hwDoneTimeout 400 [msgWriteEx]).1 = 0 ∧
    Ev.waitDone (-EAGAIN) ∈ (mtk_i2c_master_xfer hwDoneTimeout 400 [msgWriteEx]).1 := by
  decide

end Mt7621I2c
